import Mathlib

/-!
Verification development for the `@arpadroid/style-bun` theme-bundling engine
(`ThemeBundler`, source file `src/themeBundler/themeBundler.mjs`).

The JavaScript class is shallowly embedded here:
* the filesystem is an explicit value (`FS`): an association list of
  file paths to string contents plus a list of directory paths; every
  `fs.readFileSync` / `fs.writeFileSync` / `fs.existsSync` / `fs.unlinkSync`
  becomes a pure operation on that value.  Paths are treated as normalized
  POSIX strings, so `PATH.normalize`/`PATH.join` on already-clean absolute
  paths is plain string concatenation with `/`, as in the test fixtures.
* console output becomes an explicit list of `Log` events
  (`console.error` ↦ `Log.error`, `console.warn` ↦ `Log.warn`,
  `console.info`/`console.log` ↦ `Log.info`).  Message texts are
  transcribed without emoji prefixes and without embedded quotes.
* the external collaborators that the spec excludes (the `glob` library,
  the `sass` CLI, the LightningCSS `transform`, `JSON.parse`) are opaque
  function parameters carried in `Env`.
* the process-wide `--mode` flag is `Env.mode`, the `sass` availability
  check (`hasSassSupport`) is `Env.sassOk`.
* promises: the class is single-threaded and every await point is a
  function-composition point in the embedding; the `bundlePromise`
  coalescing gate of `bundle()` is modelled as an explicit state machine
  (`BundleGate`), as the only observable behaviour of that gate is which
  calls start a fresh `_bundle` pass and which join the in-flight one.
-/

/-- The process-wide build mode (`--mode` command line flag): `MODE` in the
source is `production` when `argv.mode === 'production'`, else `development`. -/
inductive Mode where
  | development
  | production
deriving DecidableEq, Repr

/-- One console diagnostic event. -/
inductive Log where
  | warn (msg : String)
  | error (msg : String)
  | info (msg : String)
deriving DecidableEq, Repr

/-! ## String helpers (JS / Node semantics) -/

/-- JS `String.prototype.endsWith`. -/
def strEndsWith (s suffixStr : String) : Bool :=
  suffixStr.data.isSuffixOf s.data

/-- JS `String.prototype.startsWith` / a leading-`/` test. -/
def strStartsWith (s pre : String) : Bool :=
  pre.data.isPrefixOf s.data

/-- Substring search on character lists (JS `String.prototype.indexOf !== -1`). -/
def containsSubList : List Char → List Char → Bool
  | [], pat => pat.isEmpty
  | c :: rest, pat => pat.isPrefixOf (c :: rest) || containsSubList rest pat

/-- JS `s.indexOf(sub) !== -1`. -/
def strContains (s sub : String) : Bool :=
  containsSubList s.data sub.data

/-- Replace the first occurrence of `pat` in the list (JS
`String.prototype.replace` with a string pattern replaces only the first
occurrence). -/
def replaceFirstList (repl : List Char) : List Char → List Char → List Char
  | [], pat => if pat.isEmpty then repl else []
  | c :: rest, pat =>
    if pat.isPrefixOf (c :: rest) then repl ++ (c :: rest).drop pat.length
    else c :: replaceFirstList repl rest pat

/-- JS `s.replace(pat, repl)` for string patterns (first occurrence only). -/
def replaceFirst (s pat repl : String) : String :=
  ⟨replaceFirstList repl.data s.data pat.data⟩

/-- JS `String.prototype.split` with a single-character separator
(`"a.b.c".split(".") = ["a","b","c"]`, `"".split(".") = [""]`). -/
def splitChar (sep : Char) : List Char → List (List Char)
  | [] => [[]]
  | c :: rest =>
    let r := splitChar sep rest
    if c = sep then [] :: r
    else
      match r with
      | [] => [[c]]
      | h :: t => (c :: h) :: t

/-- JS `s.split(sep)` for one-character separators, as strings. -/
def strSplit (s : String) (sep : Char) : List String :=
  (splitChar sep s.data).map (fun l => ⟨l⟩)

/-- `s.length` (code units; our paths and contents are ASCII, where this
coincides with the character count). -/
def strLen (s : String) : Nat :=
  s.data.length

/-- `s.slice(n)` / `String.drop` by characters. -/
def strDrop (s : String) (n : Nat) : String :=
  ⟨s.data.drop n⟩

/-- A whitespace test covering the characters JS `String.prototype.trim`
strips in the inputs at hand. -/
def isWsp (c : Char) : Bool :=
  c = ' ' || c = '\t' || c = '\n' || c = '\r'

/-- JS `String.prototype.trim`. -/
def jsTrim (s : String) : String :=
  ⟨((s.data.dropWhile isWsp).reverse.dropWhile isWsp).reverse⟩

/-- Node `PATH.basename` on a normalized POSIX path, also
`path.split(PATH.sep).pop()` from `_initialize`. -/
def basename (s : String) : String :=
  (strSplit s '/').getLastD ""

/-- Node `PATH.extname`: the suffix of the basename from its last `.`
(included); `""` when the basename has no dot or only a leading dot. -/
def extname (s : String) : String :=
  let parts := strSplit (basename s) '.'
  if parts.length ≤ 1 then ""
  else if parts.length = 2 ∧ parts.headD "" = "" then ""
  else "." ++ parts.getLastD ""

/-- The source comment header that `getCSS` prepends to a fragment in
development mode (the comment-opening and closing characters are written
with `\x2a` = asterisk escapes). -/
def devHeader (mode : Mode) (file : String) : String :=
  if mode = Mode.development then "\r\n/\x2a\r\n File: " ++ file ++ "  \r\n\x2a/\r\n" else ""

/-! ## Filesystem model -/

/-- An explicit filesystem value: association list from file path to content
(first binding wins) together with the set of directories.  All paths are
normalized absolute POSIX paths. -/
structure FS where
  files : List (String × String)
  dirs : List String
deriving DecidableEq, Repr

/-- Content of a file, `none` when no such file exists. -/
def readFile? (fs : FS) (p : String) : Option String :=
  (fs.files.find? (fun e => e.1 == p)).map (fun e => e.2)

/-- `fs.readFileSync` with an explicit default for the cannot-happen
missing-file case (call sites in the source only read paths they have
just written or that passed an `existsSync` filter). -/
def readFileD (fs : FS) (p dflt : String) : String :=
  (readFile? fs p).getD dflt

/-- Does a regular file exist at `p`? -/
def fileExists (fs : FS) (p : String) : Bool :=
  (readFile? fs p).isSome

/-- Does a directory exist at `p` (`lstatSync(p).isDirectory()`)? -/
def dirExists (fs : FS) (p : String) : Bool :=
  fs.dirs.contains p

/-- Node `fs.existsSync`: true for files and directories alike. -/
def existsAny (fs : FS) (p : String) : Bool :=
  fileExists fs p || dirExists fs p

/-- `fs.writeFileSync` (create or overwrite). -/
def writeFile (fs : FS) (p c : String) : FS :=
  { fs with files := (p, c) :: fs.files.filter (fun e => !(e.1 == p)) }

/-- `fs.unlinkSync`. -/
def deleteFile (fs : FS) (p : String) : FS :=
  { fs with files := fs.files.filter (fun e => !(e.1 == p)) }

/-- `fs.mkdirSync(p, { recursive: true })`, modelled as recording the single
directory path. -/
def mkdirp (fs : FS) (p : String) : FS :=
  { fs with dirs := if fs.dirs.contains p then fs.dirs else p :: fs.dirs }

/-- `fs.copyFileSync src dst`, guarded as at its call sites. -/
def copyFile (fs : FS) (src dst : String) : FS :=
  if fileExists fs src then writeFile fs dst (readFileD fs src "") else fs

/-- Is `p` a direct child path of directory `dir`? -/
def isDirectChild (dir p : String) : Bool :=
  strStartsWith p (dir ++ "/") && !((strDrop p (strLen dir + 1)).data.contains '/')

/-! ## Theme state

A `ThemeBundler` instance after `_initialize` has finished: the merged
`_config` (defaults < constructor argument < file config), the separately
kept `fileConfig`, the derived `themeName`/`path`/`extension`, the list of
active watcher handles, and (when `baseTheme` was configured) the child
`ThemeBundler` built for the base theme. -/

/-- The scalar state of one `ThemeBundler` instance. `fileIncludes` is
`this.fileConfig?.includes ?? []` (note `getIncludes` reads the *file*
config, not the merged `_config`); the remaining config fields are the
merged `_config` values after `_initializeConfig`. -/
structure ThemeCore where
  themeName : String
  path : String
  extension : String
  fileIncludes : List String
  patterns : List String
  commonThemeFile : Option String
  target : Option String
  minifiedTarget : Option String
  exportPath : Option String
  verbose : Bool
  watchers : List Nat
deriving DecidableEq, Repr

/-- A theme unit together with its (optional) base-theme unit, which the
constructor builds recursively from `config.baseTheme`. -/
inductive ThemeState where
  | leaf (core : ThemeCore)
  | withBase (core : ThemeCore) (base : ThemeState)
deriving DecidableEq, Repr

/-- The scalar state of a theme unit. -/
def ThemeState.core : ThemeState → ThemeCore
  | .leaf c => c
  | .withBase c _ => c

/-- The external collaborators and process-wide flags of a bundle pass. -/
structure Env where
  mode : Mode
  sassOk : Bool
  sassCompile : String → String
  minifyFn : String → String
  globFn : String → List String
  cwd : String

/-! ## Getters (the `#region Get` block of the source) -/

/-- `getTargetFile`: the un-minified bundle target,
`config.target ?? <path>/<name>.bundled.<extension>`. -/
def getTargetFile (c : ThemeCore) : String :=
  c.target.getD (c.path ++ "/" ++ c.themeName ++ ".bundled." ++ c.extension)

/-- `getCSSTargetFile`: `getTargetFile().replace(.<extension>, .css)`
(first occurrence, as JS `String.replace`). -/
def getCSSTargetFile (c : ThemeCore) : String :=
  replaceFirst (getTargetFile c) ("." ++ c.extension) ".css"

/-- `getMinifiedTargetFile`: `config.minifiedTarget ?? <path>/<name>.min.css`. -/
def getMinifiedTargetFile (c : ThemeCore) : String :=
  c.minifiedTarget.getD (c.path ++ "/" ++ c.themeName ++ ".min.css")

/-- `getIncludes`: each file-config include stem resolved to
`<path>/<include>.<extension>`. -/
def getIncludes (c : ThemeCore) : List String :=
  c.fileIncludes.map (fun i => c.path ++ "/" ++ i ++ "." ++ c.extension)

/-- `getCommonThemeFile`: `undefined` for the unit named `common`; the
configured path otherwise, unless it is set, non-empty and does not exist
(then an error is logged and `undefined` returned). -/
def getCommonThemeFile (c : ThemeCore) (fs : FS) : Option String × List Log :=
  if c.themeName = "common" then (none, [])
  else
    match c.commonThemeFile with
    | none => (none, [])
    | some f =>
      if f ≠ "" ∧ ¬ existsAny fs f then
        (none, [Log.error ("common theme file does not exist: " ++ f ++ ".")])
      else (some f, [])

/-- `normalizePattern`: substitute `{cwd}`, root relative patterns at the
theme path, append a recursive glob suffix when no wildcard is present, and
optionally append `.<themeName>.<extension>`. -/
def normalizePattern (c : ThemeCore) (cwd : String) (pattern : String)
    (addExtension : Bool) : String :=
  let p1 := if strContains pattern "{cwd}" then replaceFirst pattern "{cwd}" cwd else pattern
  let p2 := if ¬ strStartsWith p1 "/" then c.path ++ "/" ++ p1 else p1
  let p3 := if ¬ strEndsWith p2 "*" ∧ ¬ strContains p2 "**" then p2 ++ "/\x2a\x2a/\x2a" else p2
  if addExtension then p3 ++ "." ++ c.themeName ++ "." ++ c.extension else p3

/-- `getPatterns`: every configured pattern, normalized. -/
def getPatterns (c : ThemeCore) (cwd : String) (addExtension : Bool) : List String :=
  c.patterns.map (fun p => normalizePattern c cwd p addExtension)

/-- `getPatternFiles`: the glob matches of every normalized pattern,
concatenated in pattern order (the glob library is the opaque `globFn`). -/
def getPatternFiles (env : Env) (c : ThemeCore) : List String :=
  (getPatterns c env.cwd true).flatMap env.globFn

/-- `getFiles`: common theme file, then explicit includes, then pattern
matches; only entries that are strings and exist survive the filter. -/
def getFiles (env : Env) (c : ThemeCore) (fs : FS) : List String × List Log :=
  let common := getCommonThemeFile c fs
  ((common.1.toList ++ getIncludes c ++ getPatternFiles env c).filter
      (fun f => existsAny fs f),
    common.2)

/-- `getCSS`: empty contribution for a `.bundled.<extension>` file other
than the common theme file; `undefined` plus a warning for an existing but
empty file; otherwise the content, preceded in development mode by a source
comment.  (A read of a non-existing file would throw in JS; `mergeFiles`
only passes files that survived the `existsSync` filter, and that case is
mapped to `none` without a log.) -/
def getCSS (mode : Mode) (c : ThemeCore) (fs : FS) (file : String) :
    Option String × List Log :=
  if c.commonThemeFile ≠ some file ∧ strEndsWith file (".bundled." ++ c.extension) then
    (some "", [])
  else
    match readFile? fs file with
    | none => (none, [])
    | some content =>
      if content = "" then (none, [Log.warn ("No CSS found in file: " ++ file)])
      else (some (devHeader mode file ++ content), [])

/-! ## The bundle pass (`_bundle` and its callees) -/

/-- Result of `writeStyles`. -/
structure WriteOut where
  fs : FS
  styles : String
  targetFile : Option String
  message : Option String
  logs : List Log
deriving Repr

/-- `writeStyles(styles)`: skip the write (returning only a message, logged
as a warning when verbose) if the styles have no non-whitespace content,
else write them to the target file. -/
def writeStyles (c : ThemeCore) (fs : FS) (styles : String) : WriteOut :=
  if jsTrim styles = "" then
    let message := "No CSS found in theme file"
    { fs := fs, styles := styles, targetFile := none, message := some message,
      logs := if c.verbose then [Log.warn message] else [] }
  else
    let targetFile := getTargetFile c
    { fs := writeFile fs targetFile styles, styles := styles,
      targetFile := some targetFile, message := none, logs := [] }

/-- Result of the SCSS-compilation step of `_bundle`. -/
structure ScssOut where
  fs : FS
  css : String
  mtf : String
  logs : List Log
deriving Repr

/-- The warning `_bundle` emits when SCSS is configured but `sass` is not
installed. -/
def sassMissingWarning : String :=
  "SCSS files detected but sass is not installed. Run: npm install sass"

/-- The `targetFile && extension === scss` block of `_bundle`: when `sass`
is unavailable, warn and keep the raw styles as the css; when available,
compile the written target through `scssToCss` into the `.css` sibling and
read it back, also moving the minified target name to `.css`. -/
def scssStep (env : Env) (c : ThemeCore) (w : WriteOut) : ScssOut :=
  let mtf0 := getMinifiedTargetFile c
  match w.targetFile with
  | some targetFile =>
    if c.extension = "scss" then
      if env.sassOk then
        let targetCSS := replaceFirst targetFile ".scss" ".css"
        let fsC := writeFile w.fs targetCSS (env.sassCompile (readFileD w.fs targetFile ""))
        { fs := fsC, css := readFileD fsC targetCSS "",
          mtf := replaceFirst mtf0 ".scss" ".css", logs := [] }
      else
        { fs := w.fs, css := w.styles, mtf := mtf0, logs := [Log.warn sassMissingWarning] }
    else { fs := w.fs, css := w.styles, mtf := mtf0, logs := [] }
  | none => { fs := w.fs, css := w.styles, mtf := mtf0, logs := [] }

/-- `exportDir(origin, destination)`: when the origin exists, ensure the
destination directory and copy every direct child file across. -/
def exportDir (fs : FS) (origin destination : String) : FS :=
  if existsAny fs origin then
    let fs1 := if existsAny fs destination then fs else mkdirp fs destination
    (fs.files.filter (fun e => isDirectChild origin e.1)).foldl
      (fun acc e => writeFile acc (destination ++ "/" ++ strDrop e.1 (strLen origin + 1)) e.2)
      fs1
  else fs

/-- `exportBundle`: no-op without `exportPath`; otherwise create
`<exportPath>/<name>`, copy the target and minified files (when they exist)
and the `fonts`/`images` directories. -/
def exportBundle (c : ThemeCore) (fs : FS) : FS :=
  match c.exportPath with
  | none => fs
  | some exportPath =>
    let exportDirPath := exportPath ++ "/" ++ c.themeName
    let fs0 := if existsAny fs exportDirPath then fs else mkdirp fs exportDirPath
    let fs1 := copyFile fs0 (getTargetFile c) (exportDirPath ++ "/" ++ c.themeName ++ ".bundled.css")
    let fs2 := copyFile fs1 (getMinifiedTargetFile c) (exportDirPath ++ "/" ++ c.themeName ++ ".min.css")
    let fs3 := exportDir fs2 (c.path ++ "/fonts") (exportDirPath ++ "/fonts")
    exportDir fs3 (c.path ++ "/images") (exportDirPath ++ "/images")

/-- The body of `mergeFiles` once the base-theme contribution `pre` is in
hand: `getFiles` is evaluated on the filesystem as of entry (the source
computes `this.files` before awaiting `bundleBaseTheme`), the fragments are
read from the filesystem left by the base-theme bundle. -/
def mergeCore (env : Env) (c : ThemeCore) (fs : FS)
    (pre : String × FS × List Log) : String × FS × List Log :=
  let fres := getFiles env c fs
  let frag := fres.1.foldl
    (fun (acc : String × List Log) f =>
      let g := getCSS env.mode c pre.2.1 f
      (acc.1 ++ g.1.getD "", acc.2 ++ g.2))
    ("", [])
  (pre.1 ++ frag.1, pre.2.1, fres.2 ++ pre.2.2 ++ frag.2)

/-- `bundleBaseTheme` after the base bundle pass has produced `r`: read the
base theme's CSS target file (error when that name is empty/falsy). -/
def basePre (r : FS × List Log) (bcore : ThemeCore) : String × FS × List Log :=
  let targetFile := getCSSTargetFile bcore
  if targetFile = "" then ("", r.1, r.2 ++ [Log.error "NO TARGET FILE"])
  else (readFileD r.1 targetFile "", r.1, r.2)

/-- Result of one `_bundle` pass. -/
structure PassResult where
  fs : FS
  merged : String
  cssUsed : String
  wrote : Bool
  logs : List Log
deriving Repr

/-- The tail of `_bundle` once the merged styles are known: write them,
run the SCSS step, minify on demand (`MODE === production || minify`), and
export. -/
def bundleCore (env : Env) (c : ThemeCore) (fs : FS)
    (pre : String × FS × List Log) (minify : Bool) : PassResult :=
  let m := mergeCore env c fs pre
  let w := writeStyles c m.2.1 m.1
  let s := scssStep env c w
  let fs4 := if env.mode = Mode.production ∨ minify then
      writeFile s.fs s.mtf (env.minifyFn s.css)
    else s.fs
  let fs5 := exportBundle c fs4
  { fs := fs5, merged := m.1, cssUsed := s.css, wrote := w.targetFile.isSome,
    logs := (if c.verbose then [Log.info ("Compiling CSS theme: " ++ c.themeName)] else [])
      ++ m.2.2 ++ w.logs ++ s.logs }

/-- One full `_bundle` pass of a theme unit: the base theme, when present,
is bundled first (with `minify = false`, as `bundleBaseTheme` calls
`this.baseTheme.bundle()` without arguments) and its CSS target content
becomes the merge prefix.  `_bundle` itself begins with
`await this.promise`, so it always operates on the initialized state. -/
def bundleImpl (env : Env) : ThemeState → FS → Bool → PassResult
  | .leaf c, fs, minify => bundleCore env c fs ("", fs, []) minify
  | .withBase c b, fs, minify =>
    bundleCore env c fs
      (basePre ((bundleImpl env b fs false).fs, (bundleImpl env b fs false).logs) b.core)
      minify

/-- `mergeFiles` of a theme unit: the base-theme contribution (obtained by
bundling the base theme) followed by every `getFiles()` fragment in order. -/
def mergeFiles (env : Env) (t : ThemeState) (fs : FS) : String × FS × List Log :=
  match t with
  | .leaf c => mergeCore env c fs ("", fs, [])
  | .withBase c b =>
    mergeCore env c fs
      (basePre ((bundleImpl env b fs false).fs, (bundleImpl env b fs false).logs) b.core)

/-! ## Cleanup -/

/-- The file paths `cleanup` removes: the default-named bundled file, the
minified file, the sourcemap, plus the compiled-CSS sibling for SCSS themes,
each at the theme path and (when configured) under `<exportPath>/<name>/`. -/
def cleanupPaths (c : ThemeCore) : List String :=
  let files := [c.themeName ++ ".bundled." ++ c.extension,
      c.themeName ++ ".min.css",
      c.themeName ++ ".bundled.css.map"]
    ++ (if c.extension = "scss" then [c.themeName ++ ".bundled.css"] else [])
  files.flatMap (fun f =>
    [c.path ++ "/" ++ f]
      ++ (match c.exportPath with
          | some exportPath => [exportPath ++ "/" ++ c.themeName ++ "/" ++ f]
          | none => []))

/-- One guarded unlink of `cleanup`: `existsSync` then `unlinkSync`. -/
def removeIfExists (fs : FS) (p : String) : FS :=
  if fileExists fs p then deleteFile fs p else fs

/-- The file-deleting part of `cleanup` (each unlink guarded by
`existsSync`, as in the source). -/
def cleanupCore (c : ThemeCore) (fs : FS) : FS :=
  (cleanupPaths c).foldl removeIfExists fs

/-- `cleanup`: delete the output artifacts, close and discard all watchers
(`clearWatchers`), and recurse into the base theme.  Returns the new unit
state, the new filesystem and the handles that were closed. -/
def cleanup : ThemeState → FS → ThemeState × FS × List Nat
  | .leaf c, fs =>
    (.leaf { c with watchers := [] }, cleanupCore c fs, c.watchers)
  | .withBase c b, fs =>
    let fs1 := cleanupCore c fs
    let r := cleanup b fs1
    (.withBase { c with watchers := [] } r.1, r.2.1, c.watchers ++ r.2.2)

/-! ## The `bundle()` coalescing gate

`bundle(minify)` keeps a single `this.bundlePromise`: a call finding it set
returns that same promise (joining the in-flight pass); a call finding it
unset starts a fresh `_bundle` pass and stores its promise; when the pass
settles, the continuation resets `bundlePromise` to `null`.  The observable
state is which pass each caller resolves against and how many passes have
been started, so the gate is the following state machine: `cur` is the
identity of the in-flight pass (`bundlePromise`), `next` counts the passes
ever started. -/

/-- State of the `bundlePromise` gate of one theme unit. -/
structure BundleGate where
  cur : Option Nat
  next : Nat
deriving DecidableEq, Repr

/-- A `bundle()` call: returns the pass the caller resolves against. -/
def gateCall (g : BundleGate) : Nat × BundleGate :=
  match g.cur with
  | some i => (i, g)
  | none => (g.next, { cur := some g.next, next := g.next + 1 })

/-- Settling of the in-flight pass (`this.bundlePromise = null` in the
`.then` continuation). -/
def gateComplete (g : BundleGate) : BundleGate :=
  { g with cur := none }

/-- `n` back-to-back un-awaited `bundle()` calls. -/
def gateCallsN : Nat → BundleGate → BundleGate
  | 0, g => g
  | n + 1, g => gateCallsN n (gateCall g).2

/-- `n` sequentially awaited `bundle()` calls: each call is followed by the
settling of its pass before the next call is issued. -/
def gateRoundsN : Nat → BundleGate → BundleGate
  | 0, g => g
  | n + 1, g => gateRoundsN n (gateComplete (gateCall g).2)

/-! ## The `watchPattern` change filter -/

/-- The naming sub-extension of a changed file:
`PATH.basename(filePath).split(.)[1]` (`none` when the basename has no
dot). -/
def subExtOf (filePath : String) : Option String :=
  (strSplit (basename filePath) '.').get? 1

/-- The acceptance test of `watchPattern`'s change handler: the file's
extension (without the dot) must equal the configured extension and its
naming sub-extension must equal the theme name. -/
def watchPatternAccepts (c : ThemeCore) (filePath : String) : Bool :=
  decide (c.extension = strDrop (extname filePath) 1)
    && decide (subExtOf filePath = some c.themeName)

/-- Effect of one change event on a pattern root: whether `bundle()` is
invoked (given the `bundle` flag) and whether the external callback fires
(given that one was passed). -/
def watchPatternEvent (c : ThemeCore) (bundleFlag hasCallback : Bool)
    (filePath : String) : Bool × Bool :=
  if watchPatternAccepts c filePath then (bundleFlag, hasCallback) else (false, false)

/-! ## Construction and initialization (`constructor` / `_initialize`) -/

/-- The constructor argument of `ThemeBundler` (all keys optional; the
defaults of `getDefaultConfig` are applied by `setConfig`). -/
structure CtorConfig where
  path : Option String := none
  extension : Option String := none
  includes : Option (List String) := none
  patterns : Option (List String) := none
  baseTheme : Option String := none
  commonThemeFile : Option String := none
  target : Option String := none
  minifiedTarget : Option String := none
  exportPath : Option String := none
  verbose : Option Bool := none
deriving Repr

/-- The parsed shape of `<name>.config.json` (every key optional;
`Object.assign` only overrides keys the file actually defines). -/
structure FileConfig where
  extension : Option String := none
  includes : Option (List String) := none
  patterns : Option (List String) := none
  commonThemeFile : Option String := none
  target : Option String := none
  minifiedTarget : Option String := none
  exportPath : Option String := none
  verbose : Option Bool := none
deriving Repr

/-- The `ThemeCore` that `_initialize` assembles: `Object.assign` merges the
file config over the merged default/constructor `_config` (a key wins when
the file config defines it), the extension is resolved by
`getExtension` (`_config.extension || css`), and `getIncludes` later reads
the file config's `includes` directly. -/
def mkInitCore (argvVerbose : Bool) (cfg : CtorConfig) (fc : FileConfig)
    (p : String) : ThemeCore :=
  { themeName := basename p, path := p,
    extension :=
      if fc.extension.getD (cfg.extension.getD "css") = "" then "css"
      else fc.extension.getD (cfg.extension.getD "css"),
    fileIncludes := fc.includes.getD [],
    patterns := fc.patterns.getD (cfg.patterns.getD []),
    commonThemeFile := fc.commonThemeFile <|> cfg.commonThemeFile,
    target := fc.target <|> cfg.target,
    minifiedTarget := fc.minifiedTarget <|> cfg.minifiedTarget,
    exportPath := fc.exportPath <|> cfg.exportPath,
    verbose := fc.verbose.getD (cfg.verbose.getD argvVerbose),
    watchers := [] }

/-- `_initialize`: `setPath` (diagnostic, never a throw, for a missing or
non-directory path), derive `themeName`, load and merge the file config
(missing config file: diagnostic plus empty config; unparseable JSON would
throw, which the `Except` error models), resolve the extension
(`_config.extension || css`), and recursively construct the base theme
named by the *constructor* config (`baseTheme` is destructured from
`_config` before the file config is merged).  `fuel` bounds the base-theme
chain, which nothing in the source guards against being cyclic. -/
def initializeTheme (parseConfig : String → Option FileConfig)
    (argvVerbose : Bool) (cwd : String) :
    Nat → CtorConfig → FS → Except String (ThemeState × List Log)
  | 0, _, _ => Except.error "base theme chain exhausted the recursion bound"
  | fuel + 1, cfg, fs =>
    let p := cfg.path.getD cwd
    let pathLogs := if dirExists fs p then []
      else [Log.error ("Invalid path in theme config : " ++ p)]
    let name := basename p
    let configFile := p ++ "/" ++ name ++ ".config.json"
    let fcRes : Except String (FileConfig × List Log) :=
      if existsAny fs configFile then
        match readFile? fs configFile with
        | some payload =>
          match parseConfig payload with
          | some fc => Except.ok (fc, [])
          | none => Except.error "JSON.parse: invalid config file"
        | none => Except.error "readFileSync: config path is not a regular file"
      else
        Except.ok ({}, [Log.error ("Config file not found for theme " ++ name ++ ": " ++ configFile)])
    match fcRes with
    | Except.error e => Except.error e
    | Except.ok (fc, fcLogs) =>
      let core := mkInitCore argvVerbose cfg fc p
      match cfg.baseTheme with
      | none => Except.ok (ThemeState.leaf core, pathLogs ++ fcLogs)
      | some basePath =>
        let baseLogs := if existsAny fs basePath then []
          else [Log.error ("Base theme does not exist: " ++ basePath)]
        match initializeTheme parseConfig argvVerbose cwd fuel
            { path := some basePath, extension := some core.extension } fs with
        | Except.error e => Except.error e
        | Except.ok (baseState, baseInitLogs) =>
          Except.ok (ThemeState.withBase core baseState,
            pathLogs ++ fcLogs ++ baseLogs ++ baseInitLogs)

/-- A `bundle()` call issued right after construction: `_bundle` starts
with `await this.promise`, so the pass runs on the state `_initialize`
produced from the same filesystem. -/
def bundleAfterConstruct (parseConfig : String → Option FileConfig)
    (argvVerbose : Bool) (env : Env) (fuel : Nat) (cfg : CtorConfig)
    (fs : FS) (minify : Bool) : Except String PassResult :=
  match initializeTheme parseConfig argvVerbose env.cwd fuel cfg fs with
  | Except.error e => Except.error e
  | Except.ok (st, _) => Except.ok (bundleImpl env st fs minify)

/-- All watcher handles of a unit and, transitively, of its base theme. -/
def collectWatchers : ThemeState → List Nat
  | .leaf c => c.watchers
  | .withBase c b => c.watchers ++ collectWatchers b

/-! ## Concrete fixtures used by the witness and counterexample theorems -/

/-- A plain CSS theme unit named `dark` with no configured extras. -/
def coreDark : ThemeCore :=
  { themeName := "dark", path := "/t/dark", extension := "css",
    fileIncludes := [], patterns := [], commonThemeFile := none,
    target := none, minifiedTarget := none, exportPath := none,
    verbose := false, watchers := [] }

/-- A filesystem holding only the `dark` theme's minified output. -/
def fsDarkMin : FS :=
  { files := [("/t/dark/dark.min.css", "BODY")], dirs := [] }

/-- A filesystem holding the `dark` theme's bundled and minified outputs. -/
def fsDarkOut : FS :=
  { files := [("/t/dark/dark.bundled.css", "XX"), ("/t/dark/dark.min.css", "YY")],
    dirs := [] }

/-- A theme unit configured with a custom `target` path. -/
def coreCustomTarget : ThemeCore :=
  { themeName := "night", path := "/t/night", extension := "css",
    fileIncludes := [], patterns := [], commonThemeFile := none,
    target := some "/custom/out.css", minifiedTarget := none, exportPath := none,
    verbose := false, watchers := [] }

/-- A filesystem holding the custom target file of `coreCustomTarget`. -/
def fsCustomTarget : FS :=
  { files := [("/custom/out.css", "X")], dirs := [] }

/-- The `default` theme of the demo fixtures: a common theme file, two
includes and one pattern. -/
def coreDefault : ThemeCore :=
  { themeName := "default", path := "/app/themes/default", extension := "css",
    fileIncludes := ["vars", "type"], patterns := ["comps"],
    commonThemeFile := some "/app/test/common.css",
    target := none, minifiedTarget := none, exportPath := none,
    verbose := false, watchers := [] }

/-- Development-mode environment whose glob resolves every pattern to the
single component stylesheet of the demo. -/
def envDefault : Env :=
  { mode := Mode.development, sassOk := true,
    sassCompile := fun s => "SC-" ++ s, minifyFn := fun s => "MIN-" ++ s,
    globFn := fun _ => ["/app/comps/button.default.css"], cwd := "/app" }

/-- The demo filesystem: common file, two includes and one pattern match. -/
def fsDefault : FS :=
  { files := [("/app/test/common.css", "CC"),
      ("/app/themes/default/vars.css", "AA"),
      ("/app/themes/default/type.css", "BB"),
      ("/app/comps/button.default.css", "DD")],
    dirs := ["/app/themes/default"] }

/-- An SCSS base theme with one include. -/
def coreScssBase : ThemeCore :=
  { themeName := "base", path := "/th/base", extension := "scss",
    fileIncludes := ["v"], patterns := [], commonThemeFile := none,
    target := none, minifiedTarget := none, exportPath := none,
    verbose := false, watchers := [] }

/-- A child theme of `coreScssBase`. -/
def coreScssChild : ThemeCore :=
  { themeName := "child", path := "/th/child", extension := "scss",
    fileIncludes := [], patterns := [], commonThemeFile := none,
    target := none, minifiedTarget := none, exportPath := none,
    verbose := false, watchers := [] }

/-- Production-mode environment with a working SCSS compiler. -/
def envScss : Env :=
  { mode := Mode.production, sassOk := true,
    sassCompile := fun s => "SC-" ++ s, minifyFn := fun s => "MIN-" ++ s,
    globFn := fun _ => [], cwd := "/app" }

/-- The base theme's single SCSS source. -/
def fsScss : FS :=
  { files := [("/th/base/v.scss", "AAA")], dirs := [] }

/-- Development-mode environment without SCSS support. -/
def envNoSass : Env :=
  { mode := Mode.development, sassOk := false,
    sassCompile := fun s => "SC-" ++ s, minifyFn := fun s => "MIN-" ++ s,
    globFn := fun _ => [], cwd := "/app" }

/-- An SCSS theme with one include, bundled without `sass` installed. -/
def coreScssOnly : ThemeCore :=
  { themeName := "scssy", path := "/t/scssy", extension := "scss",
    fileIncludes := ["m"], patterns := [], commonThemeFile := none,
    target := none, minifiedTarget := none, exportPath := none,
    verbose := false, watchers := [] }

/-- The single SCSS source of `coreScssOnly`. -/
def fsScssOnly : FS :=
  { files := [("/t/scssy/m.scss", "QQ")], dirs := [] }

/-- A verbose variant of `coreDark` (for observing the writeStyles warning). -/
def coreDarkVerbose : ThemeCore :=
  { coreDark with verbose := true }

/-- A parse function that recognizes one fixed config payload. -/
def parseFixture : String → Option FileConfig :=
  fun s => if s = "CFGJSON" then some { includes := some ["vars"] } else none

/-- Constructor config pointing at the demo `default` theme. -/
def cfgDefault : CtorConfig :=
  { path := some "/app/themes/default" }

/-- Demo filesystem including the on-disk config file read by
`loadFileConfig`. -/
def fsWithConfig : FS :=
  { files := [("/app/themes/default/default.config.json", "CFGJSON"),
      ("/app/themes/default/vars.css", "AA")],
    dirs := ["/app/themes/default"] }

/-- Constructor config whose path does not exist. -/
def cfgBadPath : CtorConfig :=
  { path := some "/nope/missing" }

/-- The empty filesystem. -/
def fsEmpty : FS :=
  { files := [], dirs := [] }

/-! ## Helper lemmas about the filesystem model -/

theorem find?_filter_key_ne (l : List (String × String)) (p q : String) (h : q ≠ p) :
    (l.filter (fun e => !(e.1 == p))).find? (fun e => e.1 == q)
      = l.find? (fun e => e.1 == q) := by
  induction l with
  | nil => rfl
  | cons e l ih =>
    by_cases hep : e.1 = p
    · have h1 : (e.1 == p) = true := by simp [hep]
      have h2 : (e.1 == q) = false := by simp [hep]; exact fun hq => h hq.symm
      simp [List.filter_cons, h1, List.find?_cons, h2, ih]
    · have h1 : (e.1 == p) = false := by simp [hep]
      by_cases heq : e.1 = q
      · have h2 : (e.1 == q) = true := by simp [heq]
        simp [List.filter_cons, h1, List.find?_cons, h2]
      · have h2 : (e.1 == q) = false := by simp [heq]
        simp [List.filter_cons, h1, List.find?_cons, h2, ih]

theorem find?_filter_key_self (l : List (String × String)) (p : String) :
    (l.filter (fun e => !(e.1 == p))).find? (fun e => e.1 == p) = none := by
  induction l with
  | nil => rfl
  | cons e l ih =>
    by_cases hep : e.1 = p
    · have h1 : (e.1 == p) = true := by simp [hep]
      simp [List.filter_cons, h1, ih]
    · have h1 : (e.1 == p) = false := by simp [hep]
      simp [List.filter_cons, h1, List.find?_cons, ih]

theorem find?_none_filter (l : List (String × String)) (pr f : String × String → Bool)
    (h : l.find? pr = none) : (l.filter f).find? pr = none := by
  induction l with
  | nil => rfl
  | cons e l ih =>
    by_cases hpe : pr e = true
    · simp [List.find?_cons, hpe] at h
    · have hpe' : pr e = false := by simpa using hpe
      have hl : l.find? pr = none := by simpa [List.find?_cons, hpe'] using h
      by_cases hfe : f e = true
      · simp [List.filter_cons, hfe, List.find?_cons, hpe', ih hl]
      · have hfe' : f e = false := by simpa using hfe
        simp [List.filter_cons, hfe', ih hl]

theorem readFile?_writeFile_self (fs : FS) (p c : String) :
    readFile? (writeFile fs p c) p = some c := by
  simp [readFile?, writeFile, List.find?_cons]

theorem readFile?_writeFile_ne (fs : FS) (p c q : String) (h : q ≠ p) :
    readFile? (writeFile fs p c) q = readFile? fs q := by
  have h1 : (p == q) = false := by simp; exact fun hq => h hq.symm
  simp [readFile?, writeFile, List.find?_cons, h1, find?_filter_key_ne fs.files p q h]

theorem readFileD_writeFile_self (fs : FS) (p c d : String) :
    readFileD (writeFile fs p c) p d = c := by
  simp [readFileD, readFile?_writeFile_self]

theorem readFileD_writeFile_ne (fs : FS) (p c q d : String) (h : q ≠ p) :
    readFileD (writeFile fs p c) q d = readFileD fs q d := by
  simp [readFileD, readFile?_writeFile_ne fs p c q h]

theorem fileExists_of_readFile? (fs : FS) (p c : String)
    (h : readFile? fs p = some c) : fileExists fs p = true := by
  simp [fileExists, h]

theorem existsAny_of_readFile? (fs : FS) (p c : String)
    (h : readFile? fs p = some c) : existsAny fs p = true := by
  simp [existsAny, fileExists_of_readFile? fs p c h]

theorem fileExists_deleteFile_self (fs : FS) (p : String) :
    fileExists (deleteFile fs p) p = false := by
  simp [fileExists, readFile?, deleteFile, find?_filter_key_self]

theorem fileExists_filter_mono (fs : FS) (f : String × String → Bool) (q : String)
    (h : fileExists fs q = false) :
    fileExists { fs with files := fs.files.filter f } q = false := by
  have hf : fs.files.find? (fun e => e.1 == q) = none := by
    simpa [fileExists, readFile?] using h
  simp [fileExists, readFile?, find?_none_filter fs.files _ f hf]

theorem removeIfExists_dead (fs : FS) (p : String) :
    fileExists (removeIfExists fs p) p = false := by
  by_cases h : fileExists fs p = true
  · simp [removeIfExists, h, fileExists_deleteFile_self]
  · have h' : fileExists fs p = false := by simpa using h
    simp [removeIfExists, h']

theorem removeIfExists_mono (fs : FS) (p q : String)
    (h : fileExists fs q = false) :
    fileExists (removeIfExists fs p) q = false := by
  by_cases hp : fileExists fs p = true
  · simp only [removeIfExists, hp, if_true]
    exact fileExists_filter_mono fs _ q h
  · have hp' : fileExists fs p = false := by simpa using hp
    simp [removeIfExists, hp', h]

theorem removeIfExists_of_dead (fs : FS) (p : String)
    (h : fileExists fs p = false) : removeIfExists fs p = fs := by
  simp [removeIfExists, h]

theorem foldl_remove_mono (ps : List String) (fs : FS) (q : String)
    (h : fileExists fs q = false) :
    fileExists (ps.foldl removeIfExists fs) q = false := by
  induction ps generalizing fs with
  | nil => simpa using h
  | cons r ps ih => exact ih (removeIfExists fs r) (removeIfExists_mono fs r q h)

theorem foldl_remove_dead (ps : List String) :
    ∀ (fs : FS) (p : String), p ∈ ps → fileExists (ps.foldl removeIfExists fs) p = false := by
  induction ps with
  | nil => intro fs p hp; cases hp
  | cons r ps ih =>
    intro fs p hp
    rcases List.mem_cons.mp hp with h | h
    · subst h
      exact foldl_remove_mono ps (removeIfExists fs p) p (removeIfExists_dead fs p)
    · exact ih (removeIfExists fs r) p h

theorem foldl_remove_of_all_dead (ps : List String) (fs : FS)
    (h : ∀ p ∈ ps, fileExists fs p = false) :
    ps.foldl removeIfExists fs = fs := by
  induction ps with
  | nil => rfl
  | cons r ps ih =>
    have hr := removeIfExists_of_dead fs r (h r (List.mem_cons_self r ps))
    simp only [List.foldl_cons, hr]
    exact ih fun p hp => h p (List.mem_cons_of_mem r hp)

/-! ## Helper lemmas about `cleanup` -/

theorem cleanupCore_dead (c : ThemeCore) (fs : FS) (p : String)
    (hp : p ∈ cleanupPaths c) :
    fileExists (cleanupCore c fs) p = false :=
  foldl_remove_dead (cleanupPaths c) fs p hp

theorem cleanupCore_mono (c : ThemeCore) (fs : FS) (q : String)
    (h : fileExists fs q = false) :
    fileExists (cleanupCore c fs) q = false :=
  foldl_remove_mono (cleanupPaths c) fs q h

theorem cleanupCore_of_dead (c : ThemeCore) (fs : FS)
    (h : ∀ p ∈ cleanupPaths c, fileExists fs p = false) :
    cleanupCore c fs = fs :=
  foldl_remove_of_all_dead (cleanupPaths c) fs h

theorem cleanupPaths_clearWatchers (c : ThemeCore) :
    cleanupPaths { c with watchers := [] } = cleanupPaths c := rfl

theorem cleanup_fs_mono (t : ThemeState) : ∀ (fs : FS) (q : String),
    fileExists fs q = false → fileExists (cleanup t fs).2.1 q = false := by
  induction t with
  | leaf c => exact fun fs q h => cleanupCore_mono c fs q h
  | withBase c b ih =>
    intro fs q h
    exact ih (cleanupCore c fs) q (cleanupCore_mono c fs q h)

theorem cleanup_paths_dead (t : ThemeState) (fs : FS) (p : String)
    (hp : p ∈ cleanupPaths t.core) :
    fileExists (cleanup t fs).2.1 p = false := by
  cases t with
  | leaf c => exact cleanupCore_dead c fs p hp
  | withBase c b =>
    exact cleanup_fs_mono b (cleanupCore c fs) p (cleanupCore_dead c fs p hp)

theorem cleanup_closed (t : ThemeState) (fs : FS) :
    (cleanup t fs).2.2 = collectWatchers t := by
  induction t generalizing fs with
  | leaf c => rfl
  | withBase c b ih => simp [cleanup, collectWatchers, ih]

theorem cleanup_core_watchers (t : ThemeState) (fs : FS) :
    ((cleanup t fs).1).core.watchers = [] := by
  cases t <;> rfl

theorem cleanup_idem (t : ThemeState) : ∀ fs : FS,
    cleanup (cleanup t fs).1 (cleanup t fs).2.1
      = ((cleanup t fs).1, (cleanup t fs).2.1, []) := by
  induction t with
  | leaf c =>
    intro fs
    have hdead : ∀ p ∈ cleanupPaths { c with watchers := ([] : List Nat) },
        fileExists (cleanupCore c fs) p = false := by
      intro p hp
      rw [cleanupPaths_clearWatchers] at hp
      exact cleanupCore_dead c fs p hp
    simp [cleanup, cleanupCore_of_dead _ _ hdead]
  | withBase c b ih =>
    intro fs
    have hdead : ∀ p ∈ cleanupPaths { c with watchers := ([] : List Nat) },
        fileExists (cleanup b (cleanupCore c fs)).2.1 p = false := by
      intro p hp
      rw [cleanupPaths_clearWatchers] at hp
      exact cleanup_fs_mono b (cleanupCore c fs) p (cleanupCore_dead c fs p hp)
    have hb := ih (cleanupCore c fs)
    simp only [cleanup]
    rw [cleanupCore_of_dead _ _ hdead]
    rw [hb]
    simp

/-! ## Helper lemmas about strings -/

theorem strAppend_left_nil (s : String) : ("" : String) ++ s = s := by
  apply String.ext
  rw [String.data_append]
  rfl

theorem strEndsWith_append (a b : String) : strEndsWith (a ++ b) b = true := by
  rw [strEndsWith, String.data_append]
  exact List.isSuffixOf_iff_suffix.mpr (List.suffix_append a.data b.data)

/-! ## Helper lemmas about the bundle pass -/

theorem writeStyles_of_nonblank (c : ThemeCore) (fs : FS) (styles : String)
    (h : jsTrim styles ≠ "") :
    writeStyles c fs styles
      = { fs := writeFile fs (getTargetFile c) styles, styles := styles,
          targetFile := some (getTargetFile c), message := none, logs := [] } := by
  simp [writeStyles, h]

theorem basePre_of_ne (r : FS × List Log) (bcore : ThemeCore)
    (h : getCSSTargetFile bcore ≠ "") :
    basePre r bcore = (readFileD r.1 (getCSSTargetFile bcore) "", r.1, r.2) := by
  simp [basePre, h]

theorem exportBundle_none (c : ThemeCore) (fs : FS) (h : c.exportPath = none) :
    exportBundle c fs = fs := by
  simp [exportBundle, h]

theorem getCSS_reads (mode : Mode) (c : ThemeCore) (fs : FS) (f content : String)
    (hok : c.commonThemeFile = some f ∨ strEndsWith f (".bundled." ++ c.extension) = false)
    (hr : readFile? fs f = some content) (hne : content ≠ "") :
    getCSS mode c fs f = (some (devHeader mode f ++ content), []) := by
  rcases hok with hok | hok
  · simp [getCSS, hok, hr, hne]
  · simp [getCSS, hok, hr, hne]

theorem bundleCore_merged (env : Env) (c : ThemeCore) (fs : FS)
    (pre : String × FS × List Log) (minify : Bool) :
    (bundleCore env c fs pre minify).merged = (mergeCore env c fs pre).1 := rfl

theorem mergeCore_prefix (env : Env) (c : ThemeCore) (fs : FS)
    (pre : String × FS × List Log) :
    ∃ rest, (mergeCore env c fs pre).1 = pre.1 ++ rest :=
  ⟨_, rfl⟩

theorem getCSSTargetFile_of_scss (c : ThemeCore) (hext : c.extension = "scss") :
    getCSSTargetFile c = replaceFirst (getTargetFile c) ".scss" ".css" := by
  unfold getCSSTargetFile
  rw [hext]
  exact congrArg (fun pat => replaceFirst (getTargetFile c) pat ".css") (by decide)

theorem bundleCore_scss_css_target (env : Env) (c : ThemeCore) (fs : FS)
    (pre : String × FS × List Log) (minify : Bool)
    (hext : c.extension = "scss") (hs : env.sassOk = true)
    (hnb : jsTrim (mergeCore env c fs pre).1 ≠ "")
    (hexp : c.exportPath = none)
    (hmtf : replaceFirst (getMinifiedTargetFile c) ".scss" ".css" ≠ getCSSTargetFile c) :
    readFileD (bundleCore env c fs pre minify).fs (getCSSTargetFile c) ""
      = env.sassCompile ((bundleCore env c fs pre minify).merged) := by
  have hw := writeStyles_of_nonblank c (mergeCore env c fs pre).2.1 (mergeCore env c fs pre).1 hnb
  have hcss := getCSSTargetFile_of_scss c hext
  simp only [bundleCore, hw, scssStep, hext, hs, if_true, ← hcss]
  rw [readFileD_writeFile_self]
  split
  · rw [exportBundle_none c _ hexp]
    rw [readFileD_writeFile_ne _ _ _ _ _ (fun he => hmtf he.symm)]
    rw [readFileD_writeFile_self]
  · rw [exportBundle_none c _ hexp]
    rw [readFileD_writeFile_self]

theorem bundleCore_no_sass (env : Env) (c : ThemeCore) (fs : FS)
    (pre : String × FS × List Log) (minify : Bool)
    (hext : c.extension = "scss") (hs : env.sassOk = false)
    (hnb : jsTrim (mergeCore env c fs pre).1 ≠ "") :
    Log.warn sassMissingWarning ∈ (bundleCore env c fs pre minify).logs
    ∧ (bundleCore env c fs pre minify).cssUsed = (bundleCore env c fs pre minify).merged
    ∧ ((env.mode = Mode.production ∨ minify = true) → c.exportPath = none →
       readFileD (bundleCore env c fs pre minify).fs (getMinifiedTargetFile c) ""
         = env.minifyFn ((bundleCore env c fs pre minify).merged)) := by
  have hw := writeStyles_of_nonblank c (mergeCore env c fs pre).2.1 (mergeCore env c fs pre).1 hnb
  refine ⟨?_, ?_, ?_⟩
  · simp [bundleCore, hw, scssStep, hext, hs]
  · simp [bundleCore, hw, scssStep, hext, hs]
  · intro hcond hexp
    simp only [bundleCore, hw, scssStep, hext, hs]
    simp only [Bool.false_eq_true, if_false, if_true]
    simp only [if_pos hcond]
    rw [exportBundle_none c _ hexp, readFileD_writeFile_self]

/-! ## Gate lemmas -/

theorem gateCall_idle (g : BundleGate) (h : g.cur = none) :
    gateCall g = (g.next, { cur := some g.next, next := g.next + 1 }) := by
  simp [gateCall, h]

theorem gateCall_pending (g : BundleGate) (i : Nat) (h : g.cur = some i) :
    gateCall g = (i, g) := by
  simp [gateCall, h]

theorem gateCallsN_pending (n : Nat) (g : BundleGate) (i : Nat) (h : g.cur = some i) :
    gateCallsN n g = g := by
  induction n with
  | zero => rfl
  | succ n ih => simp [gateCallsN, gateCall_pending g i h, ih]

theorem gateRoundsN_next (n : Nat) : ∀ g : BundleGate, g.cur = none →
    (gateRoundsN n g).next = g.next + n := by
  induction n with
  | zero => intro g _; rfl
  | succ n ih =>
    intro g h
    rw [gateRoundsN, gateCall_idle g h]
    have := ih { cur := none, next := g.next + 1 } rfl
    simp only [gateComplete] at this ⊢
    rw [this]
    omega

/-- C3: any number of `bundle()` calls issued while a pass is in flight
resolve against that single pass (one `_bundle` start in total), while
sequentially awaited calls each start their own pass: from an idle gate,
`n + 1` back-to-back calls start exactly one pass, `n` awaited
call/settle rounds start exactly `n`, and three back-to-back callers all
receive the identity of the same single pass. -/
theorem c3_bundle_coalescing (g : BundleGate) (h : g.cur = none) (n : Nat) :
    (gateCallsN (n + 1) g).next = g.next + 1
    ∧ (gateRoundsN n g).next = g.next + n
    ∧ (gateCall g).1 = g.next
    ∧ (gateCall (gateCall g).2).1 = g.next
    ∧ (gateCall (gateCall (gateCall g).2).2).1 = g.next := by
  have hc := gateCall_idle g h
  refine ⟨?_, gateRoundsN_next n g h, ?_, ?_, ?_⟩
  · rw [gateCallsN, hc]
    rw [gateCallsN_pending n _ g.next rfl]
  · rw [hc]
  · rw [hc, gateCall_pending _ g.next rfl]
  · rw [hc, gateCall_pending _ g.next rfl, gateCall_pending _ g.next rfl]

/-- Witness for C3 at a fresh gate: three un-awaited calls start one pass,
three awaited rounds start three. -/
theorem c3_bundle_coalescing_witness :
    (gateCallsN 3 { cur := none, next := 0 }).next = 1
    ∧ (gateRoundsN 3 { cur := none, next := 0 }).next = 3 := by
  have h2 := c3_bundle_coalescing { cur := none, next := 0 } rfl 2
  have h3 := c3_bundle_coalescing { cur := none, next := 0 } rfl 3
  exact ⟨h2.1, h3.2.1⟩

/-- C7: a change event on a watched pattern root triggers a rebuild and
the callback exactly when the changed file's extension equals the theme's
configured extension and its naming sub-extension equals the theme name;
in particular `button.mobile.css` does not retrigger the `dark` theme and
`button.dark.css` does. -/
theorem c7_watch_filter :
    (∀ (c : ThemeCore) (f : String),
      watchPatternAccepts c f = true ↔
        (c.extension = strDrop (extname f) 1 ∧ subExtOf f = some c.themeName))
    ∧ watchPatternEvent coreDark true true "/demo/components/button.mobile.css" = (false, false)
    ∧ watchPatternEvent coreDark true true "/demo/components/button.dark.css" = (true, true) := by
  refine ⟨fun c f => ?_, by decide, by decide⟩
  simp [watchPatternAccepts]

/-- Witness for C7: the acceptance test evaluated on the two files of the
specification scenario. -/
theorem c7_watch_filter_witness :
    watchPatternAccepts coreDark "/demo/components/button.dark.css" = true
    ∧ ¬ watchPatternAccepts coreDark "/demo/components/button.mobile.css" = true := by
  constructor
  · exact (c7_watch_filter.1 coreDark "/demo/components/button.dark.css").mpr
      (by decide)
  · intro hacc
    have := (c7_watch_filter.1 coreDark "/demo/components/button.mobile.css").mp hacc
    exact absurd this.2 (by decide)

/-- C4 (amended): `writeStyles` skips the write exactly when the merged
styles have no non-whitespace content (not merely when they are empty): the
filesystem is unchanged, no target file is reported, and the condition is —
only under `verbose` — reported as a warning; styles with non-whitespace
content are written to the target file; no branch ever reports an error. -/
theorem c4_write_skip_amended (c : ThemeCore) (fs : FS) (styles : String) :
    (jsTrim styles = "" →
      (writeStyles c fs styles).fs = fs
      ∧ (writeStyles c fs styles).targetFile = none
      ∧ (writeStyles c fs styles).logs
          = (if c.verbose then [Log.warn "No CSS found in theme file"] else []))
    ∧ (jsTrim styles ≠ "" →
      (writeStyles c fs styles).fs = writeFile fs (getTargetFile c) styles
      ∧ (writeStyles c fs styles).targetFile = some (getTargetFile c))
    ∧ (∀ m, Log.error m ∉ (writeStyles c fs styles).logs) := by
  by_cases h : jsTrim styles = ""
  · refine ⟨fun _ => ?_, fun hne => absurd h hne, fun m => ?_⟩
    · simp [writeStyles, h]
    · by_cases hv : c.verbose <;> simp [writeStyles, h, hv]
  · refine ⟨fun he => absurd he h, fun _ => ?_, fun m => ?_⟩
    · simp [writeStyles, h]
    · simp [writeStyles, h]

/-- Witness for C4 (amended): on an empty merge with `verbose` the write is
skipped and warned about; a non-blank merge is written. -/
theorem c4_write_skip_amended_witness :
    (writeStyles coreDarkVerbose fsDarkMin "").fs = fsDarkMin
    ∧ (writeStyles coreDarkVerbose fsDarkMin "").logs = [Log.warn "No CSS found in theme file"]
    ∧ (writeStyles coreDark fsDarkMin "body").fs
        = writeFile fsDarkMin (getTargetFile coreDark) "body" := by
  have h1 := c4_write_skip_amended coreDarkVerbose fsDarkMin ""
  have h2 := c4_write_skip_amended coreDark fsDarkMin "body"
  refine ⟨(h1.1 (by decide)).1, ?_, (h2.2.1 (by decide)).1⟩
  have hl := (h1.1 (by decide)).2.2
  simpa using hl

/-- C4 counterexample: a one-space merge result is non-empty, yet
`writeStyles` does not write it (the previous target content stays), and a
genuinely empty merge under the default non-verbose config is not reported
at all — the claim's "non-empty is written" and "the condition is reported
as a warning" both fail as stated. -/
theorem c4_counterexample :
    (" " : String) ≠ ""
    ∧ (writeStyles coreDark fsDarkMin " ").fs = fsDarkMin
    ∧ (writeStyles coreDark fsDarkMin " ").targetFile = none
    ∧ (writeStyles coreDark fsDarkMin "").logs = [] := by
  decide

/-- C6 (amended): `getCSS` returns the empty string exactly for files
ending in `.bundled.<extension>` that are not the configured common theme
file — which covers the unit's default-named bundled target but not its
minified `.min.css` output —, and returns no contribution plus a warning
for any other existing file with empty content. -/
theorem c6_getcss_amended (mode : Mode) (c : ThemeCore) (fs : FS) (f : String) :
    (c.commonThemeFile ≠ some f → strEndsWith f (".bundled." ++ c.extension) = true →
      getCSS mode c fs f = (some "", []))
    ∧ (c.target = none → c.commonThemeFile ≠ some (getTargetFile c) →
      getCSS mode c fs (getTargetFile c) = (some "", []))
    ∧ ((c.commonThemeFile = some f ∨ strEndsWith f (".bundled." ++ c.extension) = false) →
      readFile? fs f = some "" →
      getCSS mode c fs f = (none, [Log.warn ("No CSS found in file: " ++ f)])) := by
  refine ⟨fun h1 h2 => ?_, fun ht h1 => ?_, fun hok hr => ?_⟩
  · simp [getCSS, h1, h2]
  · have h2 : strEndsWith (getTargetFile c) (".bundled." ++ c.extension) = true := by
      have heq : getTargetFile c
          = (c.path ++ "/" ++ c.themeName) ++ (".bundled." ++ c.extension) := by
        simp [getTargetFile, ht, String.append_assoc]
      rw [heq]
      exact strEndsWith_append _ _
    simp [getCSS, h1, h2]
  · rcases hok with hok | hok
    · simp [getCSS, hok, hr]
    · simp [getCSS, hok, hr]

/-- Witness for C6 (amended): the unit's own bundled target contributes the
empty string even when it has content on disk. -/
theorem c6_getcss_amended_witness :
    getCSS Mode.development coreDark fsDarkOut (getTargetFile coreDark) = (some "", []) :=
  (c6_getcss_amended Mode.development coreDark fsDarkOut "").2.1 rfl (by decide)

/-- C6 counterexample: `getCSS` applied to the unit's own minified output
file returns the file's (non-empty) content, not the empty string — only
`.bundled.<extension>` names are recognized as generated output. -/
theorem c6_counterexample :
    getCSS Mode.development coreDark fsDarkMin (getMinifiedTargetFile coreDark)
      = (some (devHeader Mode.development "/t/dark/dark.min.css" ++ "BODY"), [])
    ∧ devHeader Mode.development "/t/dark/dark.min.css" ++ "BODY" ≠ "" := by
  decide

/-- C8: when the theme's extension is `scss` and the `sass` toolchain is
unavailable, a bundle pass with non-blank merged content warns and falls
back to using the raw merged styles as the CSS for the rest of the pass
(in particular the minified output, when requested, is the minified raw
merge), and the pass completes rather than throwing. -/
theorem c8_scss_fallback (env : Env) (t : ThemeState) (fs : FS) (minify : Bool)
    (hext : t.core.extension = "scss") (hs : env.sassOk = false)
    (hnb : jsTrim ((bundleImpl env t fs minify).merged) ≠ "") :
    Log.warn sassMissingWarning ∈ (bundleImpl env t fs minify).logs
    ∧ (bundleImpl env t fs minify).cssUsed = (bundleImpl env t fs minify).merged
    ∧ ((env.mode = Mode.production ∨ minify = true) → t.core.exportPath = none →
       readFileD (bundleImpl env t fs minify).fs (getMinifiedTargetFile t.core) ""
         = env.minifyFn ((bundleImpl env t fs minify).merged)) := by
  cases t with
  | leaf c => exact bundleCore_no_sass env c fs ("", fs, []) minify hext hs hnb
  | withBase c b =>
    exact bundleCore_no_sass env c fs
      (basePre ((bundleImpl env b fs false).fs, (bundleImpl env b fs false).logs) b.core)
      minify hext hs hnb

/-- Witness for C8: the no-`sass` SCSS theme warns, and its minified output
is the minified raw merge. -/
theorem c8_scss_fallback_witness :
    Log.warn sassMissingWarning
      ∈ (bundleImpl envNoSass (ThemeState.leaf coreScssOnly) fsScssOnly true).logs
    ∧ readFileD (bundleImpl envNoSass (ThemeState.leaf coreScssOnly) fsScssOnly true).fs
        (getMinifiedTargetFile coreScssOnly) ""
      = envNoSass.minifyFn
          ((bundleImpl envNoSass (ThemeState.leaf coreScssOnly) fsScssOnly true).merged) := by
  have h := c8_scss_fallback envNoSass (ThemeState.leaf coreScssOnly) fsScssOnly true
    (by decide) (by decide) (by decide)
  exact ⟨h.1, h.2.2 (Or.inr rfl) rfl⟩

/-- C2: bundling a theme unit with a base theme first runs the base
theme's own bundle pass and then prepends the content of the base theme's
compiled CSS target file as it stands after that pass, so the merged output
has that content as a prefix; and when the base theme is SCSS-sourced (with
`sass` available, non-blank merge, no export path and a minified target
distinct from the CSS target) that prefix is the *compiled* output
`sassCompile` of the base theme's merge, not its raw sources. -/
theorem c2_base_prefix (env : Env) (c : ThemeCore) (Y : ThemeState) (fs : FS)
    (minify : Bool)
    (h0 : getCSSTargetFile Y.core ≠ "") :
    (∃ rest, (bundleImpl env (ThemeState.withBase c Y) fs minify).merged
        = readFileD (bundleImpl env Y fs false).fs (getCSSTargetFile Y.core) "" ++ rest)
    ∧ (Y.core.extension = "scss" → env.sassOk = true →
       jsTrim ((bundleImpl env Y fs false).merged) ≠ "" →
       Y.core.exportPath = none →
       replaceFirst (getMinifiedTargetFile Y.core) ".scss" ".css" ≠ getCSSTargetFile Y.core →
       readFileD (bundleImpl env Y fs false).fs (getCSSTargetFile Y.core) ""
         = env.sassCompile ((bundleImpl env Y fs false).merged)) := by
  constructor
  · have hb := basePre_of_ne
      ((bundleImpl env Y fs false).fs, (bundleImpl env Y fs false).logs) Y.core h0
    rw [show bundleImpl env (ThemeState.withBase c Y) fs minify
        = bundleCore env c fs
            (basePre ((bundleImpl env Y fs false).fs, (bundleImpl env Y fs false).logs) Y.core)
            minify from rfl]
    rw [hb, bundleCore_merged]
    exact mergeCore_prefix env c fs _
  · intro hext hs hnb hexp hmtf
    cases Y with
    | leaf cY =>
      exact bundleCore_scss_css_target env cY fs ("", fs, []) false hext hs hnb hexp hmtf
    | withBase cY bY =>
      exact bundleCore_scss_css_target env cY fs
        (basePre ((bundleImpl env bY fs false).fs, (bundleImpl env bY fs false).logs) bY.core)
        false hext hs hnb hexp hmtf

/-- Witness for C2: a CSS child over an SCSS base — the child's merge is
prefixed by the base's compiled CSS target content, which is the compiled
(`sassCompile`) base merge. -/
theorem c2_base_prefix_witness :
    (∃ rest,
      (bundleImpl envScss
          (ThemeState.withBase coreScssChild (ThemeState.leaf coreScssBase)) fsScss false).merged
        = readFileD (bundleImpl envScss (ThemeState.leaf coreScssBase) fsScss false).fs
            (getCSSTargetFile (ThemeState.leaf coreScssBase).core) "" ++ rest)
    ∧ readFileD (bundleImpl envScss (ThemeState.leaf coreScssBase) fsScss false).fs
        (getCSSTargetFile (ThemeState.leaf coreScssBase).core) ""
      = envScss.sassCompile
          ((bundleImpl envScss (ThemeState.leaf coreScssBase) fsScss false).merged) := by
  have h := c2_base_prefix envScss coreScssChild (ThemeState.leaf coreScssBase) fsScss false
    (by decide)
  exact ⟨h.1, h.2 rfl rfl (by decide) rfl (by decide)⟩

/-- C1: for a unit with a common theme file, includes `[a, b]` (in
file-config order) and pattern matches `[pf]`, all existing with non-empty
content and none caught by the own-output guard, `mergeFiles` returns
exactly the common content, then `a`'s, then `b`'s, then the pattern
match's, in that order, each fragment preceded only by its per-fragment
source-comment header. -/
theorem c1_merge_order (env : Env) (c : ThemeCore) (fs : FS)
    (f0 a b pf c0 ca cb cp : String)
    (hname : c.themeName ≠ "common")
    (hcf : c.commonThemeFile = some f0)
    (hinc : c.fileIncludes = [a, b])
    (hpat : getPatternFiles env c = [pf])
    (hr0 : readFile? fs f0 = some c0) (h0 : c0 ≠ "")
    (hra : readFile? fs (c.path ++ "/" ++ a ++ "." ++ c.extension) = some ca) (ha : ca ≠ "")
    (hrb : readFile? fs (c.path ++ "/" ++ b ++ "." ++ c.extension) = some cb) (hb : cb ≠ "")
    (hrp : readFile? fs pf = some cp) (hp : cp ≠ "")
    (hae : strEndsWith (c.path ++ "/" ++ a ++ "." ++ c.extension)
        (".bundled." ++ c.extension) = false)
    (hbe : strEndsWith (c.path ++ "/" ++ b ++ "." ++ c.extension)
        (".bundled." ++ c.extension) = false)
    (hpe : strEndsWith pf (".bundled." ++ c.extension) = false) :
    (mergeFiles env (ThemeState.leaf c) fs).1
      = devHeader env.mode f0 ++ c0
        ++ (devHeader env.mode (c.path ++ "/" ++ a ++ "." ++ c.extension) ++ ca)
        ++ (devHeader env.mode (c.path ++ "/" ++ b ++ "." ++ c.extension) ++ cb)
        ++ (devHeader env.mode pf ++ cp) := by
  have hex0 := existsAny_of_readFile? fs f0 c0 hr0
  have hexa := existsAny_of_readFile? fs _ ca hra
  have hexb := existsAny_of_readFile? fs _ cb hrb
  have hexq := existsAny_of_readFile? fs pf cp hrp
  have hfiles : (getFiles env c fs).1
      = [f0, c.path ++ "/" ++ a ++ "." ++ c.extension,
         c.path ++ "/" ++ b ++ "." ++ c.extension, pf] := by
    simp [getFiles, getCommonThemeFile, hname, hcf, hex0, getIncludes, hinc, hpat,
      List.filter_cons, hexa, hexb, hexq]
  have g0 := getCSS_reads env.mode c fs f0 c0 (Or.inl hcf) hr0 h0
  have ga := getCSS_reads env.mode c fs _ ca (Or.inr hae) hra ha
  have gb := getCSS_reads env.mode c fs _ cb (Or.inr hbe) hrb hb
  have gp := getCSS_reads env.mode c fs pf cp (Or.inr hpe) hrp hp
  show (mergeCore env c fs ("", fs, [])).1 = _
  simp only [mergeCore, hfiles, List.foldl_cons, List.foldl_nil, g0, ga, gb, gp,
    Option.getD_some]
  simp [strAppend_left_nil, String.append_assoc]

/-- Witness for C1 on the demo fixture: common file, two includes, one
pattern match, merged in exactly that order. -/
theorem c1_merge_order_witness :
    (mergeFiles envDefault (ThemeState.leaf coreDefault) fsDefault).1
      = devHeader envDefault.mode "/app/test/common.css" ++ "CC"
        ++ (devHeader envDefault.mode
              (coreDefault.path ++ "/" ++ "vars" ++ "." ++ coreDefault.extension) ++ "AA")
        ++ (devHeader envDefault.mode
              (coreDefault.path ++ "/" ++ "type" ++ "." ++ coreDefault.extension) ++ "BB")
        ++ (devHeader envDefault.mode "/app/comps/button.default.css" ++ "DD") :=
  c1_merge_order envDefault coreDefault fsDefault
    "/app/test/common.css" "vars" "type" "/app/comps/button.default.css"
    "CC" "AA" "BB" "DD"
    (by decide) rfl rfl (by decide)
    (by decide) (by decide) (by decide) (by decide)
    (by decide) (by decide) (by decide) (by decide)
    (by decide) (by decide) (by decide)

/-! ## Membership of the default targets in the cleanup path list -/

theorem getTargetFile_mem_cleanupPaths (c : ThemeCore) (h : c.target = none) :
    getTargetFile c ∈ cleanupPaths c := by
  simp only [cleanupPaths]
  apply List.mem_flatMap.mpr
  refine ⟨c.themeName ++ ".bundled." ++ c.extension, ?_, ?_⟩
  · simp
  · simp [getTargetFile, h, String.append_assoc]

theorem getMinifiedTargetFile_mem_cleanupPaths (c : ThemeCore)
    (h : c.minifiedTarget = none) :
    getMinifiedTargetFile c ∈ cleanupPaths c := by
  simp only [cleanupPaths]
  apply List.mem_flatMap.mpr
  refine ⟨c.themeName ++ ".min.css", ?_, ?_⟩
  · simp
  · simp [getMinifiedTargetFile, h, String.append_assoc]

/-- C9 (amended): `cleanup` is idempotent (a second run changes neither the
unit state nor the filesystem and closes no further handles), it removes
every default-named output artifact — bundled file, minified file,
sourcemap, and for SCSS themes the compiled-CSS intermediate — at the theme
path and under `exportPath/<name>/`, it discards the unit's watcher list
after closing exactly the previously active handles (recursively through
the base theme), and under the default `target`/`minifiedTarget`
configuration the unminified and minified target files are gone afterwards.
With a custom `target` or `minifiedTarget` the configured file itself is
not among the removed artifacts (see the counterexample). -/
theorem c9_cleanup_amended (t : ThemeState) (fs : FS) :
    cleanup (cleanup t fs).1 (cleanup t fs).2.1
      = ((cleanup t fs).1, (cleanup t fs).2.1, [])
    ∧ (∀ p ∈ cleanupPaths t.core, fileExists (cleanup t fs).2.1 p = false)
    ∧ ((cleanup t fs).1).core.watchers = []
    ∧ (cleanup t fs).2.2 = collectWatchers t
    ∧ (t.core.target = none →
        fileExists (cleanup t fs).2.1 (getTargetFile t.core) = false)
    ∧ (t.core.minifiedTarget = none →
        fileExists (cleanup t fs).2.1 (getMinifiedTargetFile t.core) = false) := by
  refine ⟨cleanup_idem t fs, fun p hp => cleanup_paths_dead t fs p hp,
    cleanup_core_watchers t fs, cleanup_closed t fs, fun ht => ?_, fun hm => ?_⟩
  · exact cleanup_paths_dead t fs _ (getTargetFile_mem_cleanupPaths t.core ht)
  · exact cleanup_paths_dead t fs _ (getMinifiedTargetFile_mem_cleanupPaths t.core hm)

/-- Witness for C9 (amended): after one cleanup of the default-configured
`dark` unit both default-named outputs are gone. -/
theorem c9_cleanup_amended_witness :
    fileExists (cleanup (ThemeState.leaf coreDark) fsDarkOut).2.1
      (getTargetFile coreDark) = false
    ∧ fileExists (cleanup (ThemeState.leaf coreDark) fsDarkOut).2.1
      (getMinifiedTargetFile coreDark) = false :=
  ⟨(c9_cleanup_amended (ThemeState.leaf coreDark) fsDarkOut).2.2.2.2.1 rfl,
   (c9_cleanup_amended (ThemeState.leaf coreDark) fsDarkOut).2.2.2.2.2 rfl⟩

/-- C9 counterexample: with a custom `target` path, the unminified target
file is still on disk after two successive `cleanup()` calls — `cleanup`
removes only the default-named artifacts. -/
theorem c9_counterexample :
    fileExists
      (cleanup (cleanup (ThemeState.leaf coreCustomTarget) fsCustomTarget).1
        (cleanup (ThemeState.leaf coreCustomTarget) fsCustomTarget).2.1).2.1
      (getTargetFile coreCustomTarget) = true := by
  decide

/-- C5: a configuration whose path does not exist (or is not a directory)
still constructs: `_initialize` completes with `Except.ok`, the invalid
path is reported as a diagnostic, and the unit keeps the invalid path in a
degraded state.  (The config file, living under the non-existent path,
does not exist either, and no base theme is configured.) -/
theorem c5_invalid_path (pf : String → Option FileConfig) (v : Bool) (cwd : String)
    (cfg : CtorConfig) (fs : FS) (p : String)
    (hpath : cfg.path = some p)
    (hdir : dirExists fs p = false)
    (hcfg : existsAny fs (p ++ "/" ++ basename p ++ ".config.json") = false)
    (hbase : cfg.baseTheme = none) :
    ∃ st logs, initializeTheme pf v cwd 1 cfg fs = Except.ok (st, logs)
      ∧ Log.error ("Invalid path in theme config : " ++ p) ∈ logs
      ∧ st.core.path = p ∧ st.core.themeName = basename p := by
  simp only [initializeTheme, hpath, Option.getD_some, hdir, hcfg, hbase]
  simp only [Bool.false_eq_true, if_false]
  exact ⟨_, _, rfl, by simp, rfl, rfl⟩

/-- Witness for C5 at a concrete missing path on the empty filesystem. -/
theorem c5_invalid_path_witness :
    ∃ st logs, initializeTheme parseFixture false "/cwd" 1 cfgBadPath fsEmpty
        = Except.ok (st, logs)
      ∧ Log.error ("Invalid path in theme config : " ++ "/nope/missing") ∈ logs
      ∧ st.core.path = "/nope/missing"
      ∧ st.core.themeName = basename "/nope/missing" :=
  c5_invalid_path parseFixture false "/cwd" cfgBadPath fsEmpty "/nope/missing"
    rfl rfl (by decide) rfl

/-- C10: `_bundle` begins with `await this.promise`, so a `bundle()` call
issued right after construction operates on the fully initialized state:
the unit's file-config `includes` are exactly the ones parsed from the
on-disk config file (regardless of constructor-supplied `includes`), the
pass resolves them against the theme path, and the immediately-issued
bundle equals the bundle of the initialized unit. -/
theorem c10_bundle_awaits_init (pf : String → Option FileConfig) (v : Bool)
    (env : Env) (cfg : CtorConfig) (fs : FS) (p payload : String)
    (fc : FileConfig) (L : List String) (minify : Bool)
    (hpath : cfg.path = some p)
    (hbase : cfg.baseTheme = none)
    (hread : readFile? fs (p ++ "/" ++ basename p ++ ".config.json") = some payload)
    (hparse : pf payload = some fc)
    (hinc : fc.includes = some L) :
    ∃ st logs, initializeTheme pf v env.cwd 1 cfg fs = Except.ok (st, logs)
      ∧ st.core.fileIncludes = L
      ∧ getIncludes st.core
          = L.map (fun i => st.core.path ++ "/" ++ i ++ "." ++ st.core.extension)
      ∧ st.core.path = p
      ∧ bundleAfterConstruct pf v env 1 cfg fs minify
          = Except.ok (bundleImpl env st fs minify) := by
  have hex : existsAny fs (p ++ "/" ++ basename p ++ ".config.json") = true :=
    existsAny_of_readFile? fs _ payload hread
  have hres : initializeTheme pf v env.cwd 1 cfg fs
      = Except.ok (ThemeState.leaf (mkInitCore v cfg fc p),
          (if dirExists fs p then []
           else [Log.error ("Invalid path in theme config : " ++ p)]) ++ []) := by
    simp only [initializeTheme, hpath, Option.getD_some, hex, if_true, hread,
      hparse, hbase]
  refine ⟨ThemeState.leaf (mkInitCore v cfg fc p), _, hres, ?_, ?_, rfl, ?_⟩
  · simp [ThemeState.core, mkInitCore, hinc]
  · simp [getIncludes, ThemeState.core, mkInitCore, hinc]
  · simp only [bundleAfterConstruct, hres]

/-- Witness for C10: the demo config file's includes (not the constructor's
`includes`) feed the pass issued right after construction. -/
theorem c10_bundle_awaits_init_witness :
    ∃ st logs, initializeTheme parseFixture false envDefault.cwd 1 cfgDefault fsWithConfig
        = Except.ok (st, logs)
      ∧ st.core.fileIncludes = ["vars"]
      ∧ getIncludes st.core
          = ["vars"].map (fun i => st.core.path ++ "/" ++ i ++ "." ++ st.core.extension)
      ∧ st.core.path = "/app/themes/default"
      ∧ bundleAfterConstruct parseFixture false envDefault 1 cfgDefault fsWithConfig false
          = Except.ok (bundleImpl envDefault st fsWithConfig false) :=
  c10_bundle_awaits_init parseFixture false envDefault cfgDefault fsWithConfig
    "/app/themes/default" "CFGJSON" { includes := some ["vars"] } ["vars"] false
    rfl rfl (by decide) rfl rfl
